import Mathlib

/-!
# Verification of the Cluster repository's analytics pipeline

Shallow embedding of the customer-analytics pipeline:
* `src/src/components/AnalyticsDashboard.tsx` (second revision, the k-means
  clustering dashboard, lines 375-844 of the concatenated file) and
* the RFM dashboard embedded in `src/src/pages/Landing.tsx` (lines 38-299),
* the CSV/sample-data producer `src/unnamed/part_000` (only referenced for
  context; its rows are plain string-keyed objects).

Records are modelled as ordered association lists from column name to raw
string value (the shape produced by the repository's CSV parser, which always
stores a string for every header).  Machine floating-point arithmetic is
modelled exactly over `ℚ`, except for the standard-deviation computation of
the normalizer which needs a square root and is modelled over `ℝ`.
-/

set_option maxRecDepth 1000000

namespace Cluster

/-- A parsed CSV row: ordered (column name, raw string value) pairs.  The
repository's `parseCSV` (src/unnamed/part_000 lines 17-34) stores
`values[index] || ''` for every header, so every field is a string. -/
abbrev Rec := List (String × String)

/-- A table: the ordered list of rows handed to the dashboard. -/
abbrev Table := List Rec

/-- `row[field]` for a parsed CSV row.  A missing key behaves like the empty
string (the CSV parser fills absent cells with `''`). -/
def getField (r : Rec) (f : String) : String :=
  match r.find? (fun p => p.1 == f) with
  | some p => p.2
  | none => ""

/-! ## Models of the JavaScript numeric primitives

The dashboards call the JS builtins `parseFloat`, `Number` coercion (via
`isFinite`), `Math.round`, `Math.floor`, `Math.ceil` and `Date` parsing.
These are not repository code; they are modelled here on the decimal
fragment the repository's data exercises (optional sign, digits, one decimal
point; no exponents, no hex, no `Infinity` literal).  `none` stands for
`NaN`. -/

/-- Value of a digit list read left to right. -/
def digitsToNat (ds : List Char) : ℕ :=
  ds.foldl (fun a c => a * 10 + (c.toNat - 48)) 0

/-- Unsigned decimal prefix parse: `digits [. digits]`, needing at least one
digit; trailing garbage is ignored (that is `parseFloat`'s behaviour). -/
def parseDecCore (cs : List Char) : Option ℚ :=
  let ip := cs.takeWhile Char.isDigit
  let r1 := cs.dropWhile Char.isDigit
  let fp := match r1 with
    | '.' :: rest => rest.takeWhile Char.isDigit
    | _ => []
  if ip = [] ∧ fp = [] then none
  else some ((digitsToNat ip : ℚ) + (digitsToNat fp : ℚ) / (10 ^ fp.length))

/-- Signed decimal prefix parse. -/
def parseSigned (cs : List Char) : Option ℚ :=
  match cs with
  | '-' :: rest => (parseDecCore rest).map (fun q => -q)
  | '+' :: rest => parseDecCore rest
  | _ => parseDecCore cs

/-- Model of JS `parseFloat` on the decimal fragment: skip leading spaces,
then prefix-parse a signed decimal; `none` is `NaN`. -/
def jsParseFloat (s : String) : Option ℚ :=
  parseSigned (s.toList.dropWhile (fun c => c = ' '))

/-- Unsigned decimal full-string parse (the whole input must be consumed). -/
def fullDec (cs : List Char) : Option ℚ :=
  let ip := cs.takeWhile Char.isDigit
  let r1 := cs.dropWhile Char.isDigit
  match r1 with
  | [] => if ip = [] then none else some (digitsToNat ip : ℚ)
  | '.' :: rest =>
    let fp := rest.takeWhile Char.isDigit
    let r2 := rest.dropWhile Char.isDigit
    if r2 = [] ∧ ¬(ip = [] ∧ fp = []) then
      some ((digitsToNat ip : ℚ) + (digitsToNat fp : ℚ) / (10 ^ fp.length))
    else none
  | _ => none

/-- Signed decimal full-string parse. -/
def fullSigned (cs : List Char) : Option ℚ :=
  match cs with
  | '-' :: rest => (fullDec rest).map (fun q => -q)
  | '+' :: rest => fullDec rest
  | _ => fullDec cs

/-- Model of JS `Number(s)` (the coercion `isFinite` applies to its argument)
on the decimal fragment: trim spaces; the empty string coerces to `0`; else
the whole remaining string must be a signed decimal.  `none` is `NaN`. -/
def jsToNumber (s : String) : Option ℚ :=
  let cs := ((s.toList.dropWhile (fun c => c = ' ')).reverse.dropWhile
    (fun c => c = ' ')).reverse
  if cs = [] then some 0 else fullSigned cs

/-- Model of JS `isFinite(s)` for a raw string cell: the numeric coercion of
the string must be a (finite) number. -/
def jsIsFinite (s : String) : Bool := (jsToNumber s).isSome

/-- Model of JS `Math.round` (half away from zero is half toward `+∞` for JS):
`Math.round q = ⌊q + 1/2⌋`. -/
def jsRound (q : ℚ) : ℤ := ⌊q + 1 / 2⌋

/-- Split a character list on the dash separator. -/
def splitDash : List Char → List (List Char)
  | [] => [[]]
  | c :: rest =>
    if c = '-' then [] :: splitDash rest
    else match splitDash rest with
      | g :: gs => (c :: g) :: gs
      | [] => [[c]]

/-- A non-empty all-digit group read as a number. -/
def digitsOnly (cs : List Char) : Option ℕ :=
  if cs ≠ [] ∧ cs.all Char.isDigit then some (digitsToNat cs) else none

/-- Model of JS `new Date(s)` restricted to the ISO `YYYY-MM-DD` strings the
repository's sample data produces, returning (year, month); anything else is
an invalid date (`none`). -/
def jsParseDate (s : String) : Option (ℕ × ℕ) :=
  match splitDash s.toList with
  | [y, m, d] =>
    match digitsOnly y, digitsOnly m, digitsOnly d with
    | some yy, some mm, some dd =>
      if y.length = 4 ∧ 1 ≤ mm ∧ mm ≤ 12 ∧ 1 ≤ dd ∧ dd ≤ 31 then some (yy, mm)
      else none
    | _, _, _ => none
  | _ => none

/-- ASCII lowercase of a character (model of JS `toLowerCase` on the ASCII
column names the repository deals in). -/
def lowerChar (c : Char) : Char :=
  if 65 ≤ c.toNat ∧ c.toNat ≤ 90 then Char.ofNat (c.toNat + 32) else c

/-- ASCII lowercase of a string. -/
def lowerStr (s : String) : String := String.mk (s.toList.map lowerChar)

/-- `a.includes(b)` on strings (used lowercased by the field classifier). -/
def strHas (s sub : String) : Bool := decide (sub.toList <:+: s.toList)

/-! ## Field Classifier (AnalyticsDashboard.tsx lines 430-445, 474-477) -/

/-- `Object.keys(data[0])` — the schema read off the first row. -/
def fields (t : Table) : List String := (t.headD []).map Prod.fst

/-- Columns whose lowercased name contains "amount", "revenue", "value" or
"total" (line 435-440). -/
def amountFields (t : Table) : List String :=
  (fields t).filter (fun f =>
    strHas (lowerStr f) "amount" || strHas (lowerStr f) "revenue" ||
    strHas (lowerStr f) "value" || strHas (lowerStr f) "total")

/-- Columns whose lowercased name contains "date", "time" or "created"
(lines 441-445). -/
def dateFields (t : Table) : List String :=
  (fields t).filter (fun f =>
    strHas (lowerStr f) "date" || strHas (lowerStr f) "time" ||
    strHas (lowerStr f) "created")

/-- Columns for which some value among the first 100 rows satisfies
`!isNaN(parseFloat(val)) && isFinite(val)` (lines 474-477).  Note the second
conjunct applies `isFinite` to the raw value, i.e. to `Number(val)`. -/
def numericFields (t : Table) : List String :=
  (fields t).filter (fun f =>
    ((t.take 100).map (fun r => getField r f)).any
      (fun v => (jsParseFloat v).isSome && jsIsFinite v))

/-! ## Feature Extractor (lines 449-454, 480-485, 554, 563-566) -/

/-- `totalRevenue` (lines 449-454): sum over rows of
`parseFloat(row[amountFields[0]]) || 0`, or `0` when no amount field. -/
def totalRevenue (t : Table) : ℚ :=
  if amountFields t = [] then 0
  else (t.map (fun r =>
    (jsParseFloat (getField r ((amountFields t).headD ""))).getD 0)).sum

/-- Per-row feature vector over `numericFields`, `0` substituted for a parse
failure (lines 480-485). -/
def clusteringData (t : Table) : List (List ℚ) :=
  t.map (fun r => (numericFields t).map (fun f =>
    (jsParseFloat (getField r f)).getD 0))

/-- The display amount of a row: `parseFloat(row[amountFields[0]]) || 0` when
an amount field exists, else `0` (line 554). -/
def amountOf (t : Table) (r : Rec) : ℚ :=
  if amountFields t = [] then 0
  else (jsParseFloat (getField r ((amountFields t).headD ""))).getD 0

/-- The per-row `features` map (lines 563-566). -/
def featuresOf (t : Table) (r : Rec) : List (String × ℚ) :=
  (numericFields t).map (fun f => (f, (jsParseFloat (getField r f)).getD 0))

/-! ## Normalizer (`normalizeData`, AnalyticsDashboard.tsx lines 391-423)

`Math.sqrt` forces this component into `ℝ`; everything else in the pipeline
stays in `ℚ`. -/

/-- Column mean over rows (lines 398-406); `row[j]` is `getD j 0`, matching
the rectangular-input assumption of the source. -/
noncomputable def colMean (d : List (List ℝ)) (j : ℕ) : ℝ :=
  (d.map (fun r => r.getD j 0)).sum / d.length

/-- Column population standard deviation: `sqrt(Σ (x - mean)² / n)`
(lines 408-415). -/
noncomputable def colStd (d : List (List ℝ)) (j : ℕ) : ℝ :=
  Real.sqrt ((d.map (fun r => (r.getD j 0 - colMean d j) ^ 2)).sum / d.length)

/-- The divisor actually used: `if (stds[j] === 0) stds[j] = 1` (line 416). -/
noncomputable def colDivisor (d : List (List ℝ)) (j : ℕ) : ℝ :=
  if colStd d j = 0 then 1 else colStd d j

/-- `normalizeData` (lines 391-423): identity on zero rows / zero columns,
else entry-wise `(value - means[j]) / stds[j]`. -/
noncomputable def normalizeData (d : List (List ℝ)) : List (List ℝ) :=
  if d = [] ∨ d.headD [] = [] then d
  else d.map (fun row =>
    List.zipWith (fun j v => (v - colMean d j) / colDivisor d j)
      (List.range row.length) row)

/-! ## K-means (the `kmeans` import from the external `ml-kmeans` package)

Modelled from the spec: the clustering iteration itself is the external
`ml-kmeans` library, not repository source; §4.4 of the spec specifies
standard Lloyd's-algorithm k-means (Euclidean distance, recompute centroid as
mean, at most 100 iterations, deterministic/seeded initialization).  We model
it with deterministic initialization to the first `k` rows; an empty cluster
keeps its previous centroid. -/

/-- Squared Euclidean distance (over shared coordinates). -/
noncomputable def dist2 (a b : List ℝ) : ℝ :=
  (List.zipWith (fun x y => (x - y) ^ 2) a b).sum

/-- Index of the first nearest centroid, scanning with a running best. -/
noncomputable def nearestAux (p : List ℝ) :
    List (List ℝ) → ℕ → ℝ → ℕ → ℕ
  | [], _, _, best => best
  | c :: rest, i, bestD, best =>
    if dist2 p c < bestD then nearestAux p rest (i + 1) (dist2 p c) i
    else nearestAux p rest (i + 1) bestD best

/-- Index of the nearest centroid (first wins on ties); `0` for no centroids. -/
noncomputable def nearestIdx (cs : List (List ℝ)) (p : List ℝ) : ℕ :=
  match cs with
  | [] => 0
  | c :: rest => nearestAux p rest 1 (dist2 p c) 0

/-- Mean of a set of points (dimension read off the first point); an empty
cluster keeps the old centroid. -/
noncomputable def centroidOf (pts : List (List ℝ)) (old : List ℝ) : List ℝ :=
  if pts = [] then old
  else (List.range (pts.headD []).length).map (fun j =>
    (pts.map (fun p => p.getD j 0)).sum / pts.length)

/-- Recompute every centroid from the current assignment. -/
noncomputable def updateCentroids (rows : List (List ℝ)) (a : List ℕ)
    (cs : List (List ℝ)) : List (List ℝ) :=
  (List.range cs.length).map (fun cid =>
    centroidOf ((rows.zip a).filterMap (fun pc =>
      if pc.2 = cid then some pc.1 else none)) (cs.getD cid []))

open Classical in
/-- Lloyd iteration: assign, recompute, stop on convergence or when the fuel
(maximum iteration count) runs out; returns per-row cluster indices. -/
noncomputable def lloyd (rows : List (List ℝ)) : List (List ℝ) → ℕ → List ℕ
  | cs, 0 => rows.map (nearestIdx cs)
  | cs, n + 1 =>
    if updateCentroids rows (rows.map (nearestIdx cs)) cs = cs then
      rows.map (nearestIdx cs)
    else lloyd rows (updateCentroids rows (rows.map (nearestIdx cs)) cs) n

/-- k-means clusters: initialize with the first `k` rows, iterate. -/
noncomputable def kmeansClusters (rows : List (List ℝ)) (k maxIter : ℕ) :
    List ℕ :=
  lloyd rows (rows.take k) maxIter

/-! ## Clustering pipeline plumbing (lines 488-492, 550) -/

/-- `normalizedData` (line 488): normalize when there is at least one row. -/
noncomputable def normalizedData (t : Table) : List (List ℝ) :=
  if clusteringData t = [] then []
  else normalizeData ((clusteringData t).map (fun row => row.map Rat.cast))

/-- `k = Math.min(5, data.length)` (line 491). -/
def kOf (t : Table) : ℕ := min 5 t.length

/-- `clusterResults` (line 492): `kmeans(...)` when `normalizedData` is
non-empty, else `null`. -/
noncomputable def clusterResults? (t : Table) : Option (List ℕ) :=
  if normalizedData t = [] then none
  else some (kmeansClusters (normalizedData t) (kOf t) 100)

/-- `clusterResults ? clusterResults.clusters[index] : 0` (line 550). -/
noncomputable def clusterIdAt (t : Table) (i : ℕ) : ℕ :=
  match clusterResults? t with
  | some cs => cs.getD i 0
  | none => 0

/-! ## Segment Namer (`generateSegmentNames`, lines 495-545)

The naming logic is parameterized by the cluster assignment so that it can be
studied for any clusters the (external) k-means run may produce. -/

/-- Statistics of one cluster (lines 501-510). -/
structure ClusterStat where
  clusterId : ℕ
  avgValues : List ℚ
  size : ℕ
deriving DecidableEq, Repr

/-- `clusteringData.filter((_, idx) => clusters[idx] === clusterId)`
(line 502); rows beyond the assignment list are never equal to `clusterId`. -/
def clusterPoints (cd : List (List ℚ)) (clusters : List ℕ) (cid : ℕ) :
    List (List ℚ) :=
  (cd.zip clusters).filterMap (fun pc => if pc.2 = cid then some pc.1 else none)

/-- One cluster's stats, `none` for an empty cluster (lines 501-510). -/
def statOf (cd : List (List ℚ)) (clusters : List ℕ) (nfLen cid : ℕ) :
    Option ClusterStat :=
  let pts := clusterPoints cd clusters cid
  if pts.length = 0 then none
  else some ⟨cid,
    (List.range nfLen).map (fun fi =>
      (pts.map (fun p => p.getD fi 0)).sum / pts.length),
    pts.length⟩

/-- The name of one (non-empty) cluster from its stats (lines 519-544):
compare the cluster's mean of the primary-value feature with the global mean,
else fall back to size-ratio-only naming. -/
def nameStat (pIdx? : Option ℕ) (cd : List (List ℚ)) (n : ℕ)
    (st : ClusterStat) : String :=
  let rel : ℚ := (st.size : ℚ) / n
  match pIdx? with
  | some pi =>
    let avgValue := st.avgValues.getD pi 0
    let overallAvg := (cd.map (fun p => p.getD pi 0)).sum / cd.length
    if overallAvg * 1.5 < avgValue then
      if 0.15 < rel then "High Value" else "Premium"
    else if overallAvg * 0.8 < avgValue then
      if 0.25 < rel then "Core Customers" else "Regular"
    else if overallAvg * 0.3 < avgValue then "Potential Growth"
    else if 0.2 < rel then "Entry Level" else "At Risk"
  | none =>
    if 0.3 < rel then "Majority Segment"
    else if 0.2 < rel then "Significant Group"
    else if 0.1 < rel then "Niche Segment"
    else "Emerging Group"

/-- `numericFields.findIndex(f => amountFields.includes(f))` (lines 514-516),
as an `Option` (`-1` becomes `none`). -/
def primaryIdx (t : Table) : Option ℕ :=
  (numericFields t).findIdx? (fun f => (amountFields t).contains f)

/-- `generateSegmentNames` with the cluster assignment made explicit
(lines 495-545).  Note line 511's `.filter(Boolean)` drops the `null` stats
of empty clusters before the positional `map` to names. -/
def segmentNamesCore (cd : List (List ℚ)) (clusters? : Option (List ℕ))
    (k n : ℕ) (nfLen : ℕ) (pIdx? : Option ℕ) (nfEmpty : Bool) : List String :=
  match clusters? with
  | none => (List.range k).map (fun i => "Segment " ++ toString (i + 1))
  | some cs =>
    if nfEmpty then (List.range k).map (fun i => "Segment " ++ toString (i + 1))
    else ((List.range k).filterMap (statOf cd cs nfLen)).map
      (nameStat pIdx? cd n)

/-- The segment names list for a table and a given cluster assignment. -/
def segmentNamesWith (t : Table) (cs : List ℕ) : List String :=
  segmentNamesCore (clusteringData t) (some cs) (kOf t) t.length
    (numericFields t).length (primaryIdx t) (decide (numericFields t = []))

/-- `segmentNames[clusterId] || 'Segment ${clusterId+1}'` (line 551): both an
out-of-range index (`undefined`) and an empty string are falsy. -/
def segPick (names : List String) (cid : ℕ) : String :=
  let s := names.getD cid ""
  if s = "" then "Segment " ++ toString (cid + 1) else s

/-- The displayed segment of record `i` for a given cluster assignment. -/
def segmentAtWith (t : Table) (cs : List ℕ) (i : ℕ) : String :=
  segPick (segmentNamesWith t cs) (cs.getD i 0)

/-- Pipeline segment names: `generateSegmentNames()` with the pipeline's own
`clusterResults` (line 547). -/
noncomputable def segmentNames (t : Table) : List String :=
  segmentNamesCore (clusteringData t) (clusterResults? t) (kOf t) t.length
    (numericFields t).length (primaryIdx t) (decide (numericFields t = []))

/-- The displayed segment of record `i` in the pipeline (lines 550-551). -/
noncomputable def segmentAt (t : Table) (i : ℕ) : String :=
  segPick (segmentNames t) (clusterIdAt t i)

/-- Modelled from the spec (§4.5): the name a cluster id *should* get — the
classification computed from that very cluster's mean of the primary-value
feature and its own size ratio (`none` for an empty cluster, which owns no
records). -/
def specNameOfCluster (t : Table) (cs : List ℕ) (cid : ℕ) : Option String :=
  (statOf (clusteringData t) cs (numericFields t).length cid).map
    (nameStat (primaryIdx t) (clusteringData t) t.length)

/-! ## Enriched records (the object spread, lines 549-568 and Landing 84-116)

A JS object is an ordered key-value list; `{...customer, id: ..., ...}`
spreads the base object and then writes each listed key in order, replacing
an existing key's value in place. -/

/-- The value of one property of an enriched record. -/
inductive JsVal where
  | vStr (s : String)
  | vNum (q : ℚ)
  | vFeat (m : List (String × ℚ))
deriving DecidableEq, Repr

/-- Write a property: replace the existing key's value in place (JS object
keys are unique), else append the new key at the end. -/
def objSet : List (String × JsVal) → String → JsVal → List (String × JsVal)
  | [], k, v => [(k, v)]
  | p :: rest, k, v =>
    if p.1 = k then (p.1, v) :: rest else p :: objSet rest k v

/-- Read a property. -/
def objGet (l : List (String × JsVal)) (k : String) : Option JsVal :=
  (l.find? (fun p => p.1 == k)).map Prod.snd

/-- The base object: the spread `...customer` of a parsed CSV row. -/
def baseObj (r : Rec) : List (String × JsVal) :=
  r.map (fun p => (p.1, JsVal.vStr p.2))

/-- The enriched record of the clustering dashboard (lines 556-567): spread,
then `id`, `cluster`, `segment`, `monetary`, `features` in source order. -/
def enrich (r : Rec) (i cid : ℕ) (seg : String) (mon : ℚ)
    (fts : List (String × ℚ)) : List (String × JsVal) :=
  objSet (objSet (objSet (objSet (objSet (baseObj r)
    "id" (.vNum (i + 1)))
    "cluster" (.vNum cid))
    "segment" (.vStr seg))
    "monetary" (.vNum mon))
    "features" (.vFeat fts)

/-- `customerSegments` (lines 549-568). -/
noncomputable def customerSegments (t : Table) : List (List (String × JsVal)) :=
  t.mapIdx (fun i r =>
    enrich r i (clusterIdAt t i) (segmentAt t i) (amountOf t r)
      (featuresOf t r))

/-! ## Segment distribution (lines 571-580, Landing 119-128) -/

/-- `acc[name] = (acc[name] || 0) + 1` on an ordered string-keyed object:
increment the existing key (object keys are unique) or append it with 1. -/
def bump : List (String × ℕ) → String → List (String × ℕ)
  | [], name => [(name, 1)]
  | p :: rest, name =>
    if p.1 = name then (p.1, p.2 + 1) :: rest else p :: bump rest name

/-- `segmentCounts`: the reduce over the per-record segment names. -/
def segmentCounts (names : List String) : List (String × ℕ) :=
  names.foldl bump []

/-- `Math.round((value / totalCustomers) * 100)`. -/
def pctOf (v total : ℕ) : ℤ := jsRound ((v : ℚ) / total * 100)

/-- `segmentData`: `(name, count, percentage)` triples (lines 576-580). -/
def segmentData (names : List String) (total : ℕ) : List (String × ℕ × ℤ) :=
  (segmentCounts names).map (fun p => (p.1, p.2, pctOf p.2 total))

/-- The segment string a record's enriched object reports (what the
`reduce` at line 571 reads via `customer.segment`). -/
def segStrOf (e : List (String × JsVal)) : String :=
  match objGet e "segment" with
  | some (.vStr s) => s
  | _ => ""

/-- Pipeline segment distribution of the clustering dashboard. -/
noncomputable def clusterSegmentData (t : Table) : List (String × ℕ × ℤ) :=
  segmentData ((customerSegments t).map segStrOf) t.length

/-! ## Monthly trend (lines 583-624) -/

/-- `"${year}-${String(month).padStart(2,'0')}"`. -/
def monthKey (y m : ℕ) : String :=
  toString y ++ "-" ++ (if m < 10 then "0" else "") ++ toString m

/-- Add one record to the month grouping object (lines 592-596):
`(count, revenue)` keyed by year-month, insertion ordered; the existing
bucket (keys are unique) is updated in place, a new one is appended. -/
def dBump : List (String × ℕ × ℚ) → String → ℚ → List (String × ℕ × ℚ)
  | [], key, amt => [(key, 1, amt)]
  | p :: rest, key, amt =>
    if p.1 = key then (p.1, p.2.1 + 1, p.2.2 + amt) :: rest
    else p :: dBump rest key amt

/-- The `monthGroups` reduce (lines 587-599) with the classifier outputs made
explicit: a record whose date does not parse is skipped; revenue adds
`parseFloat(row[amountFields[0]]) || 0` when an amount field exists. -/
def monthGroupsAux (df a0 : String) (hasAmt : Bool) (rows : List Rec) :
    List (String × ℕ × ℚ) :=
  rows.foldl (fun acc r =>
    match jsParseDate (getField r df) with
    | none => acc
    | some ym => dBump acc (monthKey ym.1 ym.2)
        (if hasAmt then (jsParseFloat (getField r a0)).getD 0 else 0)) []

/-- `monthGroups` of the pipeline. -/
def monthGroups (t : Table) : List (String × ℕ × ℚ) :=
  monthGroupsAux ((dateFields t).headD "") ((amountFields t).headD "")
    (decide (amountFields t ≠ [])) t

/-- Stable insertion of a bucket into a key-sorted bucket list. -/
def insBucket (p : String × ℕ × ℚ) : List (String × ℕ × ℚ) →
    List (String × ℕ × ℚ)
  | [] => [p]
  | q :: rest => if p.1 ≤ q.1 then p :: q :: rest else q :: insBucket p rest

/-- Stable sort of the bucket entries by key (model of
`.sort(([a],[b]) => a.localeCompare(b))`; `localeCompare` on `YYYY-MM` keys
is the string order, which is chronological). -/
def sortBuckets : List (String × ℕ × ℚ) → List (String × ℕ × ℚ)
  | [] => []
  | p :: rest => insBucket p (sortBuckets rest)

/-- The real trend (lines 601-611): sort the bucket entries by key, keep the
last 12, round the revenue.  The month label is kept as the bucket key. -/
def realMonthly (t : Table) : List (String × ℤ × ℤ) :=
  let es := sortBuckets (monthGroups t)
  ((es.drop (es.length - 12)).map (fun p => (p.1, (p.2.1 : ℤ), jsRound p.2.2)))

/-- `Math.ceil(data.length / 12)` (line 618). -/
def itemsPerMonth (n : ℕ) : ℕ := (n + 11) / 12

/-- Short month names for the synthetic buckets. -/
def monthShort (i : ℕ) : String :=
  (["Jan", "Feb", "Mar", "Apr", "May", "Jun", "Jul", "Aug", "Sep", "Oct",
    "Nov", "Dec"]).getD i ""

/-- The synthetic fallback trend (lines 618-623): 12 buckets,
`customers = Math.min(itemsPerMonth, n - i*itemsPerMonth)` (note: no lower
clamp) and `revenue = Math.round((totalRevenue/12) * (0.8 + rng i * 0.4))`
with the jitter stream injected. -/
def syntheticMonthly (n : ℕ) (rev : ℚ) (rng : ℕ → ℚ) : List (String × ℤ × ℤ) :=
  (List.range 12).map (fun i =>
    (monthShort i,
     min (itemsPerMonth n : ℤ) ((n : ℤ) - i * itemsPerMonth n),
     jsRound (rev / 12 * (8 / 10 + rng i * (4 / 10)))))

/-- `monthlyData` (lines 583-624): the real trend when a date-like field
exists (nothing in that branch throws, so the catch never fires), else the
synthetic fallback. -/
def monthlyData (t : Table) (rng : ℕ → ℚ) : List (String × ℤ × ℤ) :=
  if dateFields t = [] then syntheticMonthly t.length (totalRevenue t) rng
  else realMonthly t

/-! ## The insights snapshot (lines 426-647) -/

/-- The fields of the snapshot that the claims consume. -/
structure Insights where
  totalCustomers : ℕ
  totalRevenue : ℚ
  avgOrderValue : ℚ
  customerSegments : List (List (String × JsVal))
  segmentData : List (String × ℕ × ℤ)
  monthlyData : List (String × ℤ × ℤ)
  numericFields : List String

/-- `insights` (lines 426-427, 634-646): `null` for a missing or empty table,
else the assembled snapshot. -/
noncomputable def insights? (data? : Option Table) (rng : ℕ → ℚ) :
    Option Insights :=
  match data? with
  | none => none
  | some [] => none
  | some t =>
    some { totalCustomers := t.length
           totalRevenue := totalRevenue t
           avgOrderValue := totalRevenue t / t.length
           customerSegments := customerSegments t
           segmentData := clusterSegmentData t
           monthlyData := monthlyData t rng
           numericFields := numericFields t }

/-! ## Rule-based RFM dashboard (Landing.tsx lines 52-147)

The three `Math.random()` draws of lines 85-87 are modelled as injected
per-record streams `rA`, `rR`, `rF` with values in `[0,1)`. -/

/-- `amountFields.length > 0 ? parseFloat(customer[amountFields[0]]) || 0
: Math.random() * 1000` (line 85). -/
def rfmMonetary (t : Table) (rA : ℕ → ℚ) (i : ℕ) (r : Rec) : ℚ :=
  if amountFields t = [] then rA i * 1000
  else (jsParseFloat (getField r ((amountFields t).headD ""))).getD 0

/-- Modelled from the spec (§4.2): `primaryAmount` = parsed float of
`record[amountFields[0]]` if `amountFields` is non-empty, else `0.0` (also
`0.0` on parse failure). -/
def specPrimaryAmount (t : Table) (r : Rec) : ℚ :=
  if amountFields t = [] then 0
  else (jsParseFloat (getField r ((amountFields t).headD ""))).getD 0

/-- `Math.floor(Math.random() * 365)` (line 86). -/
def rfmRecency (rR : ℕ → ℚ) (i : ℕ) : ℤ := ⌊rR i * 365⌋

/-- `Math.floor(Math.random() * 20) + 1` (line 87). -/
def rfmFrequency (rF : ℕ → ℚ) (i : ℕ) : ℤ := ⌊rF i * 20⌋ + 1

/-- Recency score (line 90). -/
def rScoreOf (recency : ℤ) : ℕ :=
  if recency < 30 then 5 else if recency < 90 then 4
  else if recency < 180 then 3 else if recency < 365 then 2 else 1

/-- Frequency score (line 91). -/
def fScoreOf (freq : ℤ) : ℕ :=
  if 15 < freq then 5 else if 10 < freq then 4
  else if 5 < freq then 3 else if 2 < freq then 2 else 1

/-- Monetary score (line 92). -/
def mScoreOf (amount : ℚ) : ℕ :=
  if 1000 < amount then 5 else if 500 < amount then 4
  else if 200 < amount then 3 else if 50 < amount then 2 else 1

/-- Average-score to segment name (lines 95-103). -/
def rfmSegName (avg : ℚ) : String :=
  if 9 / 2 ≤ avg then "Champions"
  else if 4 ≤ avg then "Loyal Customers"
  else if 7 / 2 ≤ avg then "Potential Loyalists"
  else if 3 ≤ avg then "At Risk"
  else if 2 ≤ avg then "Need Attention"
  else "Lost Customers"

/-- The segment name of record `i` in RFM mode. -/
def rfmSegmentAt (t : Table) (rA rR rF : ℕ → ℚ) (i : ℕ) (r : Rec) : String :=
  rfmSegName ((rScoreOf (rfmRecency rR i) + fScoreOf (rfmFrequency rF i)
    + mScoreOf (rfmMonetary t rA i r) : ℚ) / 3)

/-- The enriched RFM record (lines 105-115): spread, then `id`, `recency`,
`frequency`, `monetary`, `rScore`, `fScore`, `mScore`, `segment` in source
order. -/
def rfmEnrich (t : Table) (rA rR rF : ℕ → ℚ) (i : ℕ) (r : Rec) :
    List (String × JsVal) :=
  objSet (objSet (objSet (objSet (objSet (objSet (objSet (objSet (baseObj r)
    "id" (.vNum (i + 1)))
    "recency" (.vNum (rfmRecency rR i)))
    "frequency" (.vNum (rfmFrequency rF i)))
    "monetary" (.vNum (rfmMonetary t rA i r)))
    "rScore" (.vNum (rScoreOf (rfmRecency rR i))))
    "fScore" (.vNum (fScoreOf (rfmFrequency rF i))))
    "mScore" (.vNum (mScoreOf (rfmMonetary t rA i r))))
    "segment" (.vStr (rfmSegmentAt t rA rR rF i r))

/-- `customerSegments` of the RFM dashboard (lines 84-116). -/
def rfmSegments (t : Table) (rA rR rF : ℕ → ℚ) :
    List (List (String × JsVal)) :=
  t.mapIdx (fun i r => rfmEnrich t rA rR rF i r)

/-- RFM segment distribution (Landing lines 119-128). -/
def rfmSegmentData (t : Table) (rA rR rF : ℕ → ℚ) : List (String × ℕ × ℤ) :=
  segmentData ((rfmSegments t rA rR rF).map segStrOf) t.length

/-- The population variance of column `j` (what the source sums before the
square root). -/
noncomputable def colVar (d : List (List ℝ)) (j : ℕ) : ℝ :=
  (d.map (fun r => (r.getD j 0 - colMean d j) ^ 2)).sum / d.length

/-- C5: the table of the failing input — four records over a single
`amount` column. -/
def tC5 : Table :=
  [[("amount", "10")], [("amount", "10")], [("amount", "1000")],
   [("amount", "1000")]]

/-- C7: the failing input — a date-like column whose only value is
unparseable. -/
def tC7 : Table := [[("date", "garbage"), ("amount", "5")]]

/-- C9: the failing input — one record, no date-like column. -/
def tC9 : Table := [[("x", "5")]]

/-! ## Helper lemmas: JS objects -/

theorem objGet_cons (p : String × JsVal) (rest : List (String × JsVal))
    (k : String) :
    objGet (p :: rest) k = if p.1 = k then some p.2 else objGet rest k := by
  by_cases h : p.1 = k
  · simp [objGet, List.find?_cons, h]
  · simp [objGet, List.find?_cons, h]

theorem objGet_objSet_same (l : List (String × JsVal)) (k : String)
    (v : JsVal) : objGet (objSet l k v) k = some v := by
  induction l with
  | nil => simp [objSet, objGet_cons]
  | cons p rest ih =>
    by_cases hp : p.1 = k
    · simp [objSet, hp, objGet_cons]
    · simp [objSet, hp, objGet_cons, ih]

theorem objGet_objSet_other (l : List (String × JsVal)) (k k' : String)
    (v : JsVal) (hne : k' ≠ k) : objGet (objSet l k v) k' = objGet l k' := by
  induction l with
  | nil => simp [objSet, objGet_cons, objGet, Ne.symm hne]
  | cons p rest ih =>
    by_cases hp : p.1 = k
    · have hp' : ¬p.1 = k' := fun h => hne (by rw [← h, hp])
      rw [objSet, if_pos hp, objGet_cons, objGet_cons]
      simp [hp']
    · rw [objSet, if_neg hp, objGet_cons, objGet_cons]
      by_cases hp' : p.1 = k'
      · simp [hp']
      · simp [hp', ih]

/-! ## Helper lemmas: segment distribution -/

theorem sum_bump (acc : List (String × ℕ)) (name : String) :
    ((bump acc name).map (fun p => p.2)).sum
      = ((acc.map (fun p => p.2)).sum) + 1 := by
  induction acc with
  | nil => simp [bump]
  | cons p rest ih =>
    by_cases hp : p.1 = name
    · simp [bump, hp]; omega
    · simp [bump, hp, ih]; omega

theorem sum_foldl_bump (names : List String) (acc : List (String × ℕ)) :
    ((names.foldl bump acc).map (fun p => p.2)).sum
      = ((acc.map (fun p => p.2)).sum) + names.length := by
  induction names generalizing acc with
  | nil => simp
  | cons n rest ih =>
    simp only [List.foldl_cons, List.length_cons, ih (bump acc n), sum_bump]
    omega

/-- The per-segment counts of the distribution sum to the number of
records. -/
theorem segmentCounts_sum (names : List String) :
    (((segmentCounts names).map (fun p => p.2)).sum) = names.length := by
  simpa [segmentCounts] using sum_foldl_bump names []

/-- `Math.round` is within a half of its argument. -/
theorem jsRound_bounds (q : ℚ) :
    q - 1 / 2 ≤ (jsRound q : ℚ) ∧ (jsRound q : ℚ) ≤ q + 1 / 2 := by
  constructor
  · have h := Int.lt_floor_add_one (q + 1 / 2)
    unfold jsRound
    linarith
  · have h := Int.floor_le (q + 1 / 2)
    unfold jsRound
    linarith

/-- Each rounded percentage is within a half of the exact value, so their sum
is within `length / 2` of the exact sum. -/
theorem pctSum_bounds (N : ℕ) (cs : List (String × ℕ)) :
    ((cs.map (fun p => (p.2 : ℚ) * (100 / N))).sum) - cs.length / 2
        ≤ (((cs.map (fun p => pctOf p.2 N)).sum : ℤ) : ℚ)
    ∧ (((cs.map (fun p => pctOf p.2 N)).sum : ℤ) : ℚ)
        ≤ ((cs.map (fun p => (p.2 : ℚ) * (100 / N))).sum) + cs.length / 2 := by
  induction cs with
  | nil => simp
  | cons p rest ih =>
    have harg : ((p.2 : ℚ) / N * 100) = (p.2 : ℚ) * (100 / N) := by ring
    have hb := jsRound_bounds ((p.2 : ℚ) / N * 100)
    rw [show jsRound ((p.2 : ℚ) / N * 100) = pctOf p.2 N from rfl] at hb
    constructor
    · simp only [List.map_cons, List.sum_cons, List.length_cons]
      have h1 := ih.1
      have h2 := hb.1
      push_cast
      push_cast at h1 h2
      linarith
    · simp only [List.map_cons, List.sum_cons, List.length_cons]
      have h1 := ih.2
      have h2 := hb.2
      push_cast
      push_cast at h1 h2
      linarith

/-- The partition facts about `segmentData` for any list of per-record
segment names: counts sum to the record count, rounded percentages sum to
`100` within one unit per segment. -/
theorem segmentData_partition (names : List String) (hn : names ≠ []) :
    ((segmentData names names.length).map (fun p => p.2.1)).sum = names.length
    ∧ (100 : ℤ) - (segmentData names names.length).length
        ≤ ((segmentData names names.length).map (fun p => p.2.2)).sum
    ∧ ((segmentData names names.length).map (fun p => p.2.2)).sum
        ≤ 100 + (segmentData names names.length).length := by
  have hcounts : ((segmentData names names.length).map (fun p => p.2.1)).sum
      = names.length := by
    simpa [segmentData, List.map_map, Function.comp] using segmentCounts_sum names
  have hN : (0 : ℚ) < names.length := by
    have := List.length_pos.mpr hn
    exact_mod_cast this
  have hexact : ((segmentCounts names).map
      (fun p => (p.2 : ℚ) * (100 / names.length))).sum = 100 := by
    rw [List.sum_map_mul_right]
    have hcast : ((segmentCounts names).map (fun p => (p.2 : ℚ))).sum
        = (names.length : ℚ) := by
      have h1 := segmentCounts_sum names
      calc ((segmentCounts names).map (fun p => (p.2 : ℚ))).sum
          = (((segmentCounts names).map (fun p => p.2)).map
              (fun v : ℕ => (v : ℚ))).sum := by
            rw [List.map_map]; rfl
        _ = ((((segmentCounts names).map (fun p => p.2)).sum : ℕ) : ℚ) := by
            rw [Nat.cast_list_sum]
        _ = (names.length : ℚ) := by rw [h1]
    rw [hcast]
    field_simp
  have hb := pctSum_bounds names.length (segmentCounts names)
  rw [hexact] at hb
  have hpcts : ((segmentData names names.length).map (fun p => p.2.2)).sum
      = ((segmentCounts names).map (fun p => pctOf p.2 names.length)).sum := by
    simp only [segmentData, List.map_map]
    rfl
  have hlen : (segmentData names names.length).length
      = (segmentCounts names).length := by
    simp [segmentData]
  have hS : (0 : ℚ) ≤ (segmentCounts names).length := by positivity
  refine ⟨hcounts, ?_, ?_⟩
  · rw [hpcts, hlen]
    have : ((100 : ℤ) - (segmentCounts names).length : ℚ)
        ≤ ((((segmentCounts names).map
            (fun p => pctOf p.2 names.length)).sum : ℤ) : ℚ) := by
      push_cast
      push_cast at hb
      linarith [hb.1]
    exact_mod_cast this
  · rw [hpcts, hlen]
    have : ((((segmentCounts names).map
          (fun p => pctOf p.2 names.length)).sum : ℤ) : ℚ)
        ≤ ((100 : ℤ) + (segmentCounts names).length : ℚ) := by
      push_cast
      push_cast at hb
      linarith [hb.2]
    exact_mod_cast this

theorem length_customerSegments (t : Table) :
    (customerSegments t).length = t.length := by
  simp [customerSegments]

theorem length_rfmSegments (t : Table) (rA rR rF : ℕ → ℚ) :
    (rfmSegments t rA rR rF).length = t.length := by
  simp [rfmSegments]

/-! ## Claim theorems -/

/-- C1.  For every non-empty input table and either segmentation strategy
(k-means clustering dashboard and rule-based RFM dashboard, the latter for
any values of its injected random streams), the per-segment counts of the
aggregated segment distribution sum to the table's record count, and the
rounded per-segment percentages sum to 100 within a tolerance of 1 per
segment. -/
theorem cluster_C1_partition (t : Table) (ht : t ≠ []) (rA rR rF : ℕ → ℚ) :
    (((clusterSegmentData t).map (fun p => p.2.1)).sum = t.length
      ∧ (100 : ℤ) - (clusterSegmentData t).length
          ≤ ((clusterSegmentData t).map (fun p => p.2.2)).sum
      ∧ ((clusterSegmentData t).map (fun p => p.2.2)).sum
          ≤ 100 + (clusterSegmentData t).length)
    ∧ (((rfmSegmentData t rA rR rF).map (fun p => p.2.1)).sum = t.length
      ∧ (100 : ℤ) - (rfmSegmentData t rA rR rF).length
          ≤ ((rfmSegmentData t rA rR rF).map (fun p => p.2.2)).sum
      ∧ ((rfmSegmentData t rA rR rF).map (fun p => p.2.2)).sum
          ≤ 100 + (rfmSegmentData t rA rR rF).length) := by
  constructor
  · have hlen : ((customerSegments t).map segStrOf).length = t.length := by
      simp [length_customerSegments]
    have hne : ((customerSegments t).map segStrOf) ≠ [] := by
      intro h
      apply ht
      have := congrArg List.length h
      rw [hlen] at this
      exact List.length_eq_zero.mp this
    have h := segmentData_partition ((customerSegments t).map segStrOf) hne
    rw [hlen] at h
    exact h
  · have hlen : ((rfmSegments t rA rR rF).map segStrOf).length = t.length := by
      simp [length_rfmSegments]
    have hne : ((rfmSegments t rA rR rF).map segStrOf) ≠ [] := by
      intro h
      apply ht
      have := congrArg List.length h
      rw [hlen] at this
      exact List.length_eq_zero.mp this
    have h := segmentData_partition ((rfmSegments t rA rR rF).map segStrOf) hne
    rw [hlen] at h
    exact h

/-- C1 witness: the partition invariant at a concrete two-row table. -/
theorem cluster_C1_partition_witness :
    ((clusterSegmentData [[("a", "x")], [("a", "y")]]).map
        (fun p => p.2.1)).sum = 2
    ∧ ((rfmSegmentData [[("a", "x")], [("a", "y")]] (fun _ => 0) (fun _ => 0)
        (fun _ => 0)).map (fun p => p.2.1)).sum = 2 := by
  have h := cluster_C1_partition [[("a", "x")], [("a", "y")]] (by decide)
    (fun _ => 0) (fun _ => 0) (fun _ => 0)
  exact ⟨h.1.1, h.2.1⟩

/-- C2.  The pipeline is total: a missing or empty table yields the `null`
no-data sentinel rather than an error, and a non-empty table whose (first)
amount column contains only unparseable garbage yields a snapshot with
`totalRevenue = 0`. -/
theorem cluster_C2_nothrow (t : Table) (rng : ℕ → ℚ) (ht : t ≠ [])
    (hbad : ∀ r ∈ t,
      jsParseFloat (getField r ((amountFields t).headD "")) = none) :
    insights? none rng = none ∧ insights? (some []) rng = none
    ∧ (insights? (some t) rng).map Insights.totalRevenue = some 0 := by
  refine ⟨rfl, rfl, ?_⟩
  have hrev : totalRevenue t = 0 := by
    unfold totalRevenue
    by_cases hA : amountFields t = []
    · simp [hA]
    · rw [if_neg hA]
      apply List.sum_eq_zero
      intro x hx
      rw [List.mem_map] at hx
      obtain ⟨r, hr, hxr⟩ := hx
      rw [← hxr, hbad r hr]
      rfl
  match t, ht with
  | r :: rest, _ => simp [insights?, hrev]

/-- C2 witness: the no-throw guarantee at a one-row table whose amount column
holds the unparseable string "abc". -/
theorem cluster_C2_nothrow_witness :
    (insights? (some [[("amount", "abc")]]) (fun _ => 0)).map
      Insights.totalRevenue = some 0 := by
  exact (cluster_C2_nothrow [[("amount", "abc")]] (fun _ => 0) (by decide)
    (by decide)).2.2

/-- C9 counterexample: on a one-record table the synthetic buckets are not
an even distribution of the records: `Math.min(itemsPerMonth,
n - i*itemsPerMonth)` has no lower clamp, so bucket 2 holds `-1` customers
and the twelve counts sum to `-54`, not to the record count 1. -/
theorem cluster_C9_counterexample :
    dateFields tC9 = []
    ∧ (monthlyData tC9 (fun _ => 0)).length = 12
    ∧ ((monthlyData tC9 (fun _ => 0)).getD 2 ("", 0, 0)).2.1 = -1
    ∧ ((monthlyData tC9 (fun _ => 0)).map (fun b => b.2.1)).sum = -54
    ∧ (-54 : ℤ) ≠ (tC9.length : ℤ) :=
  ⟨by decide, by decide, by decide, by decide, by decide⟩

/-- C9 (amended).  With no date-like column the synthetic trend has exactly
12 buckets; each bucket's revenue is `totalRevenue/12` scaled by a jitter
factor in `[0.8, 1.2)` and then rounded (so it lies within the jitter bounds
widened by the rounding half-unit, and the aggregate lies within the jitter
bounds of `totalRevenue` widened by 6); the bucket record counts follow the
unclamped chunk formula and sum to the record count exactly when
`11 * ⌈n/12⌉ ≤ n` (e.g. any multiple of 12, or the 250-row sample data) —
otherwise later buckets go negative, as the counterexample shows. -/
theorem cluster_C9_amended (t : Table) (rng : ℕ → ℚ) (hd : dateFields t = [])
    (hrng : ∀ i, 0 ≤ rng i ∧ rng i < 1) (hT : 0 ≤ totalRevenue t) :
    (monthlyData t rng).length = 12
    ∧ (∀ i, i < 12 →
        (8 / 10 : ℚ) * (totalRevenue t / 12) - 1 / 2
          ≤ (((monthlyData t rng).getD i ("", 0, 0)).2.2 : ℚ)
        ∧ (((monthlyData t rng).getD i ("", 0, 0)).2.2 : ℚ)
          ≤ (12 / 10 : ℚ) * (totalRevenue t / 12) + 1 / 2)
    ∧ ((8 / 10 : ℚ) * totalRevenue t - 6
        ≤ (((monthlyData t rng).map (fun b => b.2.2)).sum : ℚ)
      ∧ (((monthlyData t rng).map (fun b => b.2.2)).sum : ℚ)
        ≤ (12 / 10 : ℚ) * totalRevenue t + 6)
    ∧ (11 * itemsPerMonth t.length ≤ t.length →
        ((monthlyData t rng).map (fun b => b.2.1)).sum = (t.length : ℤ)) := by
  have hm : monthlyData t rng
      = syntheticMonthly t.length (totalRevenue t) rng := by
    rw [monthlyData, if_pos hd]
  have hrev : ∀ i, i < 12 →
      (8 / 10 : ℚ) * (totalRevenue t / 12) - 1 / 2
        ≤ ((jsRound (totalRevenue t / 12 * (8 / 10 + rng i * (4 / 10)))) : ℚ)
      ∧ ((jsRound (totalRevenue t / 12 * (8 / 10 + rng i * (4 / 10)))) : ℚ)
        ≤ (12 / 10 : ℚ) * (totalRevenue t / 12) + 1 / 2 := by
    intro i _
    obtain ⟨h0, h1⟩ := hrng i
    have hT12 : (0 : ℚ) ≤ totalRevenue t / 12 := by positivity
    have hf1 : (8 / 10 : ℚ) ≤ 8 / 10 + rng i * (4 / 10) := by nlinarith
    have hf2 : (8 / 10 : ℚ) + rng i * (4 / 10) ≤ 12 / 10 := by nlinarith
    have hlo := mul_le_mul_of_nonneg_left hf1 hT12
    have hhi := mul_le_mul_of_nonneg_left hf2 hT12
    have hb := jsRound_bounds (totalRevenue t / 12 * (8 / 10 + rng i * (4 / 10)))
    constructor <;> nlinarith [hb.1, hb.2]
  have hbucket : ∀ i, i < 12 →
      (syntheticMonthly t.length (totalRevenue t) rng).getD i ("", 0, 0)
      = (monthShort i,
         min (itemsPerMonth t.length : ℤ)
           ((t.length : ℤ) - i * itemsPerMonth t.length),
         jsRound (totalRevenue t / 12 * (8 / 10 + rng i * (4 / 10)))) := by
    intro i hi
    unfold syntheticMonthly
    have hlen : i < ((List.range 12).map (fun i =>
        (monthShort i,
         min (itemsPerMonth t.length : ℤ)
           ((t.length : ℤ) - i * itemsPerMonth t.length),
         jsRound (totalRevenue t / 12
           * (8 / 10 + rng i * (4 / 10)))))).length := by
      simpa using hi
    rw [List.getD_eq_getElem _ _ hlen, List.getElem_map, List.getElem_range]
  refine ⟨by rw [hm]; unfold syntheticMonthly; simp, ?_, ?_, ?_⟩
  · intro i hi
    rw [hm, hbucket i hi]
    exact hrev i hi
  · have hcast : (((monthlyData t rng).map (fun b => b.2.2)).sum : ℚ)
        = ((List.range 12).map (fun i =>
            ((jsRound (totalRevenue t / 12
              * (8 / 10 + rng i * (4 / 10)))) : ℚ))).sum := by
      rw [hm]
      unfold syntheticMonthly
      rw [List.map_map]
      rfl
    rw [hcast]
    have hlen12 : ((List.range 12).map (fun i =>
        ((jsRound (totalRevenue t / 12
          * (8 / 10 + rng i * (4 / 10)))) : ℚ))).length = 12 := by
      simp
    constructor
    · have := List.card_nsmul_le_sum ((List.range 12).map (fun i =>
        ((jsRound (totalRevenue t / 12
          * (8 / 10 + rng i * (4 / 10)))) : ℚ)))
        ((8 / 10 : ℚ) * (totalRevenue t / 12) - 1 / 2) ?_
      · rw [hlen12, nsmul_eq_mul] at this
        calc (8 / 10 : ℚ) * totalRevenue t - 6
            = 12 * ((8 / 10 : ℚ) * (totalRevenue t / 12) - 1 / 2) := by ring
          _ ≤ _ := by exact_mod_cast this
      · intro x hx
        rw [List.mem_map] at hx
        obtain ⟨i, hi, rfl⟩ := hx
        exact (hrev i (List.mem_range.mp hi)).1
    · have := List.sum_le_card_nsmul ((List.range 12).map (fun i =>
        ((jsRound (totalRevenue t / 12
          * (8 / 10 + rng i * (4 / 10)))) : ℚ)))
        ((12 / 10 : ℚ) * (totalRevenue t / 12) + 1 / 2) ?_
      · rw [hlen12, nsmul_eq_mul] at this
        calc ((List.range 12).map (fun i =>
              ((jsRound (totalRevenue t / 12
                * (8 / 10 + rng i * (4 / 10)))) : ℚ))).sum
            ≤ 12 * ((12 / 10 : ℚ) * (totalRevenue t / 12) + 1 / 2) := by
              exact_mod_cast this
          _ = (12 / 10 : ℚ) * totalRevenue t + 6 := by ring
      · intro x hx
        rw [List.mem_map] at hx
        obtain ⟨i, hi, rfl⟩ := hx
        exact (hrev i (List.mem_range.mp hi)).2
  · intro hle
    have h12 : t.length ≤ 12 * itemsPerMonth t.length := by
      unfold itemsPerMonth
      omega
    rw [hm]
    unfold syntheticMonthly
    rw [List.map_map]
    rw [show List.range 12 = [0, 1, 2, 3, 4, 5, 6, 7, 8, 9, 10, 11] from rfl]
    simp only [List.map_cons, List.map_nil, List.sum_cons, List.sum_nil,
      Function.comp]
    push_cast
    omega

/-- C9 witness of the amended claim: a 12-record table with no date column. -/
theorem cluster_C9_amended_witness :
    (monthlyData (List.replicate 12 [("a", "1")]) (fun _ => 0)).length = 12
    ∧ ((monthlyData (List.replicate 12 [("a", "1")]) (fun _ => 0)).map
        (fun b => b.2.1)).sum
      = ((List.replicate 12 ([("a", "1")] : Rec)).length : ℤ) := by
  have h := cluster_C9_amended (List.replicate 12 [("a", "1")]) (fun _ => 0)
    (by decide) (fun i => ⟨le_refl 0, by norm_num⟩)
    (by with_unfolding_all decide)
  exact ⟨h.1, h.2.2.2 (by decide)⟩

/-- C10.  The enriched output record always reports the derived `id`,
`cluster`, `segment`, `monetary` and `features` values, even when the input
row has columns with those exact names (they are shadowed by the spread
followed by the derived writes), while every other input column passes
through unchanged. -/
theorem cluster_C10_shadowing (t : Table) (i : ℕ) (hi : i < t.length)
    (key : String)
    (hkey : key ∉ ["id", "cluster", "segment", "monetary", "features"]) :
    objGet ((customerSegments t).getD i []) "id" = some (.vNum (i + 1))
    ∧ objGet ((customerSegments t).getD i []) "cluster"
        = some (.vNum (clusterIdAt t i))
    ∧ objGet ((customerSegments t).getD i []) "segment"
        = some (.vStr (segmentAt t i))
    ∧ objGet ((customerSegments t).getD i []) "monetary"
        = some (.vNum (amountOf t (t.getD i [])))
    ∧ objGet ((customerSegments t).getD i []) "features"
        = some (.vFeat (featuresOf t (t.getD i [])))
    ∧ objGet ((customerSegments t).getD i []) key
        = objGet (baseObj (t.getD i [])) key := by
  have hlen : i < (customerSegments t).length := by
    rw [length_customerSegments]; exact hi
  have he : (customerSegments t).getD i []
      = enrich (t.getD i []) i (clusterIdAt t i) (segmentAt t i)
        (amountOf t (t.getD i [])) (featuresOf t (t.getD i [])) := by
    rw [List.getD_eq_getElem _ _ hlen]
    rw [show (customerSegments t)[i] = _ from List.getElem_mapIdx]
    rw [List.getD_eq_getElem _ _ hi]
  simp only [List.mem_cons, List.not_mem_nil] at hkey
  push_neg at hkey
  obtain ⟨hk1, hk2, hk3, hk4, hk5, -⟩ := hkey
  rw [he]
  unfold enrich
  refine ⟨?_, ?_, ?_, ?_, ?_, ?_⟩
  · rw [objGet_objSet_other _ _ _ _ (by decide),
      objGet_objSet_other _ _ _ _ (by decide),
      objGet_objSet_other _ _ _ _ (by decide),
      objGet_objSet_other _ _ _ _ (by decide),
      objGet_objSet_same]
  · rw [objGet_objSet_other _ _ _ _ (by decide),
      objGet_objSet_other _ _ _ _ (by decide),
      objGet_objSet_other _ _ _ _ (by decide),
      objGet_objSet_same]
  · rw [objGet_objSet_other _ _ _ _ (by decide),
      objGet_objSet_other _ _ _ _ (by decide),
      objGet_objSet_same]
  · rw [objGet_objSet_other _ _ _ _ (by decide), objGet_objSet_same]
  · rw [objGet_objSet_same]
  · rw [objGet_objSet_other _ _ _ _ hk5, objGet_objSet_other _ _ _ _ hk4,
      objGet_objSet_other _ _ _ _ hk3, objGet_objSet_other _ _ _ _ hk2,
      objGet_objSet_other _ _ _ _ hk1]

/-- C3 counterexample: in the one-row table `{f: "12abc"}` the sampled value
parses as a finite float under the pipeline's own parse function
(`parseFloat("12abc") = 12`), yet the column is not in `numericFields`
because line 476 applies `isFinite` to the raw value (`Number("12abc")` is
`NaN`).  This refutes the claim's "if" direction. -/
theorem cluster_C3_counterexample :
    (jsParseFloat (getField [("f", "12abc")] "f")).isSome = true
    ∧ "f" ∈ fields [[("f", "12abc")]]
    ∧ "f" ∉ numericFields [[("f", "12abc")]] :=
  ⟨by decide, by decide, by decide⟩

/-- C3 (amended).  A column is in `numericFields` iff it is a schema column
and at least one value among the first `min(100, recordCount)` records both
parses under `parseFloat` and is finite under the numeric coercion of the
raw value (so plain numeric text qualifies, while mixed text such as
`"12abc"` does not even though its prefix parses). -/
theorem cluster_C3_amended (t : Table) (f : String) :
    f ∈ numericFields t ↔ f ∈ fields t ∧ ∃ i, i < min 100 t.length ∧
      ((jsParseFloat (getField (t.getD i []) f)).isSome = true
        ∧ (jsToNumber (getField (t.getD i []) f)).isSome = true) := by
  unfold numericFields
  rw [List.mem_filter]
  constructor
  · rintro ⟨hf, hany⟩
    refine ⟨hf, ?_⟩
    rw [List.any_eq_true] at hany
    obtain ⟨v, hv, hpred⟩ := hany
    rw [List.mem_map] at hv
    obtain ⟨r, hr, rfl⟩ := hv
    rw [List.mem_iff_getElem] at hr
    obtain ⟨i, hi, rfl⟩ := hr
    have hi' : i < min 100 t.length := by simpa using hi
    have hit : i < t.length := lt_of_lt_of_le hi' (min_le_right _ _)
    refine ⟨i, hi', ?_⟩
    rw [List.getD_eq_getElem t [] hit]
    rw [List.getElem_take] at hpred
    simpa [jsIsFinite, Bool.and_eq_true] using hpred
  · rintro ⟨hf, i, hi, h1, h2⟩
    refine ⟨hf, ?_⟩
    rw [List.any_eq_true]
    have hit : i < t.length := lt_of_lt_of_le hi (min_le_right _ _)
    have hlen : i < (t.take 100).length := by simpa using hi
    refine ⟨getField (t.take 100)[i] f,
      List.mem_map.mpr ⟨(t.take 100)[i], List.getElem_mem hlen, rfl⟩, ?_⟩
    rw [List.getElem_take]
    rw [List.getD_eq_getElem t [] hit] at h1 h2
    simp [jsIsFinite, h1, h2]

/-! ## Helper lemmas for the degenerate clustering input (C4) -/

theorem dist2_nil (c : List ℝ) : dist2 [] c = 0 := by simp [dist2]

theorem nearestAux_nil (rest : List (List ℝ)) :
    ∀ i : ℕ, nearestAux [] rest i 0 0 = 0 := by
  induction rest with
  | nil => intro i; rfl
  | cons c cs ih =>
    intro i
    unfold nearestAux
    rw [dist2_nil]
    simp only [lt_irrefl, if_false]
    exact ih (i + 1)

theorem nearestIdx_nil (cs : List (List ℝ)) (h : cs ≠ []) :
    nearestIdx cs [] = 0 := by
  match cs with
  | c :: rest =>
    show nearestAux [] rest 1 (dist2 [] c) 0 = 0
    rw [dist2_nil]
    exact nearestAux_nil rest 1

theorem updateCentroids_length (rows : List (List ℝ)) (a : List ℕ)
    (cs : List (List ℝ)) : (updateCentroids rows a cs).length = cs.length := by
  simp [updateCentroids]

/-- On rows of dimension zero every centroid is at distance zero, so the
Lloyd iteration assigns every row to cluster 0, whatever the fuel. -/
theorem lloyd_nilRows (rows : List (List ℝ))
    (hrows : ∀ r ∈ rows, r = ([] : List ℝ)) :
    ∀ (fuel : ℕ) (cs : List (List ℝ)), cs ≠ [] →
      lloyd rows cs fuel = rows.map (fun _ => 0) := by
  intro fuel
  induction fuel with
  | zero =>
    intro cs hcs
    unfold lloyd
    apply List.map_congr_left
    intro r hr
    rw [hrows r hr]
    exact nearestIdx_nil cs hcs
  | succ n ih =>
    intro cs hcs
    unfold lloyd
    split
    · apply List.map_congr_left
      intro r hr
      rw [hrows r hr]
      exact nearestIdx_nil cs hcs
    · apply ih
      intro hcs'
      have hlen := updateCentroids_length rows (rows.map (nearestIdx cs)) cs
      rw [hcs'] at hlen
      exact hcs (List.length_eq_zero.mp hlen.symm)

theorem getD_map_zero (t : Table) (i : ℕ) :
    ((t.map (fun _ => (0 : ℕ))).getD i 0) = 0 := by
  rw [List.getD_eq_getElem?_getD, List.getElem?_map]
  cases t[i]? <;> rfl

/-- C4.  For a non-empty table with no numeric fields (a zero-column feature
matrix), the clustering assigns cluster id 0 to every record — the
normalizer passes the empty rows through and on dimension-zero points every
centroid ties at distance zero, so the first centroid wins — and every
enriched record reports cluster 0. -/
theorem cluster_C4_degenerate (t : Table) (ht : t ≠ [])
    (hnf : numericFields t = []) :
    (∀ i, clusterIdAt t i = 0)
    ∧ ∀ i, i < t.length →
        objGet ((customerSegments t).getD i []) "cluster"
          = some (.vNum 0) := by
  have hcd : clusteringData t = t.map (fun _ => ([] : List ℚ)) := by
    simp [clusteringData, hnf]
  have hcd_ne : clusteringData t ≠ [] := by
    rw [hcd]
    simpa using ht
  have hrows : ((clusteringData t).map (fun row => row.map Rat.cast))
      = t.map (fun _ => ([] : List ℝ)) := by
    rw [hcd, List.map_map]
    rfl
  have hguard : (t.map (fun _ => ([] : List ℝ))).headD [] = [] := by
    match t, ht with
    | r :: rest, _ => rfl
  have hnd : normalizedData t = t.map (fun _ => ([] : List ℝ)) := by
    unfold normalizedData
    rw [if_neg hcd_ne, hrows]
    unfold normalizeData
    rw [if_pos (Or.inr hguard)]
  have hnd_ne : normalizedData t ≠ [] := by
    rw [hnd]
    simpa using ht
  have hk : kmeansClusters (normalizedData t) (kOf t) 100
      = (t.map (fun _ => ([] : List ℝ))).map (fun _ => 0) := by
    unfold kmeansClusters
    rw [hnd]
    apply lloyd_nilRows
    · intro r hr
      rw [List.mem_map] at hr
      obtain ⟨x, -, rfl⟩ := hr
      rfl
    · intro htk
      rw [List.take_eq_nil_iff] at htk
      rcases htk with hk0 | hmap
      · have h1 : 1 ≤ t.length := List.length_pos.mpr ht
        unfold kOf at hk0
        omega
      · rw [List.map_eq_nil_iff] at hmap
        exact ht hmap
  have hmm : (t.map (fun _ => ([] : List ℝ))).map (fun _ => (0 : ℕ))
      = t.map (fun _ => (0 : ℕ)) := by
    rw [List.map_map]
    rfl
  have hid : ∀ i, clusterIdAt t i = 0 := by
    intro i
    unfold clusterIdAt clusterResults?
    rw [if_neg hnd_ne]
    simp only
    rw [hk, hmm]
    exact getD_map_zero t i
  refine ⟨hid, ?_⟩
  intro i hi
  have hlen : i < (customerSegments t).length := by
    rw [length_customerSegments]; exact hi
  have he : (customerSegments t).getD i []
      = enrich (t.getD i []) i (clusterIdAt t i) (segmentAt t i)
        (amountOf t (t.getD i [])) (featuresOf t (t.getD i [])) := by
    rw [List.getD_eq_getElem _ _ hlen]
    rw [show (customerSegments t)[i] = _ from List.getElem_mapIdx]
    rw [List.getD_eq_getElem _ _ hi]
  rw [he]
  unfold enrich
  rw [objGet_objSet_other _ _ _ _ (by decide),
    objGet_objSet_other _ _ _ _ (by decide),
    objGet_objSet_other _ _ _ _ (by decide),
    objGet_objSet_same, hid i]
  norm_num

/-- C4 witness: a one-row table with no numeric column. -/
theorem cluster_C4_degenerate_witness :
    clusterIdAt [[("name", "bob")]] 0 = 0 :=
  (cluster_C4_degenerate [[("name", "bob")]] (by decide) (by decide)).1 0

/-- C5.  With `k = 4` and the cluster assignment `[0,0,2,2]` (clusters 1 and
3 empty, as k-means produces on duplicated points), line 511's
`.filter(Boolean)` compacts the per-cluster stats, so the names list is
positional over non-empty clusters only: the records of cluster 2 display
the fallback `"Segment 3"`, while the spec's naming rule applied to cluster
2's own mean (1000 > 1.5 × 505, size ratio 0.5 > 0.15) dictates
`"High Value"` — the name that line 528 actually computed for it but stored
at index 1. -/
theorem cluster_C5_naming_bug :
    segmentNamesWith tC5 [0, 0, 2, 2] = ["Entry Level", "High Value"]
    ∧ segmentAtWith tC5 [0, 0, 2, 2] 2 = "Segment 3"
    ∧ specNameOfCluster tC5 [0, 0, 2, 2] 2 = some "High Value"
    ∧ segmentAtWith tC5 [0, 0, 2, 2] 2 ≠ "High Value" :=
  ⟨by with_unfolding_all decide, by with_unfolding_all decide,
   by with_unfolding_all decide, by with_unfolding_all decide⟩

/-- C6 counterexample: in a table with no amount-like column, the RFM
monetary value of a record is the synthetic draw `Math.random() * 1000`
(here 500 with the stream at 1/2), not the claimed `primaryAmount = 0`. -/
theorem cluster_C6_counterexample :
    amountFields [[("name", "x")]] = []
    ∧ rfmMonetary [[("name", "x")]] (fun _ => 1 / 2) 0 [("name", "x")] = 500
    ∧ specPrimaryAmount [[("name", "x")]] [("name", "x")] = 0
    ∧ (500 : ℚ) ≠ 0 :=
  ⟨by decide, by with_unfolding_all decide, by decide, by decide⟩

/-- C6 (amended).  The RFM record's `monetary` property and the input of its
monetary score are the value of `rfmMonetary`; that value agrees with the
spec's `primaryAmount` (parsed float of the first amount field, `0` on parse
failure) whenever `amountFields` is non-empty, but is the synthetic draw
`rand * 1000` — not `0` — when `amountFields` is empty. -/
theorem cluster_C6_amended (t : Table) (rA rR rF : ℕ → ℚ) (i : ℕ)
    (hi : i < t.length) :
    objGet ((rfmSegments t rA rR rF).getD i []) "monetary"
      = some (.vNum (rfmMonetary t rA i (t.getD i [])))
    ∧ objGet ((rfmSegments t rA rR rF).getD i []) "mScore"
      = some (.vNum (mScoreOf (rfmMonetary t rA i (t.getD i []))))
    ∧ (amountFields t ≠ [] →
        rfmMonetary t rA i (t.getD i []) = specPrimaryAmount t (t.getD i []))
    ∧ (amountFields t = [] →
        rfmMonetary t rA i (t.getD i []) = rA i * 1000) := by
  have hlen : i < (rfmSegments t rA rR rF).length := by
    rw [length_rfmSegments]; exact hi
  have he : (rfmSegments t rA rR rF).getD i []
      = rfmEnrich t rA rR rF i (t.getD i []) := by
    rw [List.getD_eq_getElem _ _ hlen]
    rw [show (rfmSegments t rA rR rF)[i] = _ from List.getElem_mapIdx]
    rw [List.getD_eq_getElem _ _ hi]
  rw [he]
  unfold rfmEnrich
  refine ⟨?_, ?_, ?_, ?_⟩
  · rw [objGet_objSet_other _ _ _ _ (by decide),
      objGet_objSet_other _ _ _ _ (by decide),
      objGet_objSet_other _ _ _ _ (by decide),
      objGet_objSet_other _ _ _ _ (by decide),
      objGet_objSet_same]
  · rw [objGet_objSet_other _ _ _ _ (by decide), objGet_objSet_same]
  · intro hA
    unfold rfmMonetary specPrimaryAmount
    rw [if_neg hA, if_neg hA]
  · intro hA
    unfold rfmMonetary
    rw [if_pos hA]

/-- C6 witness: both branches of the amended claim at one-row tables, with
an amount-like column (`total`) and without one. -/
theorem cluster_C6_amended_witness :
    rfmMonetary [[("total", "7")]] (fun _ => 0) 0
        ([[("total", "7")]].getD 0 [])
      = specPrimaryAmount [[("total", "7")]] ([[("total", "7")]].getD 0 [])
    ∧ rfmMonetary [[("name", "x")]] (fun _ => 1 / 2) 0
        ([[("name", "x")]].getD 0 []) = (1 / 2 : ℚ) * 1000 := by
  constructor
  · exact (cluster_C6_amended [[("total", "7")]] (fun _ => 0) (fun _ => 0)
      (fun _ => 0) 0 (by decide)).2.2.1 (by decide)
  · exact (cluster_C6_amended [[("name", "x")]] (fun _ => 1 / 2) (fun _ => 0)
      (fun _ => 0) 0 (by decide)).2.2.2 (by decide)

/-! ## Helper lemmas for the normalizer (C8) -/

theorem colDivisor_ne_zero (d : List (List ℝ)) (j : ℕ) :
    colDivisor d j ≠ 0 := by
  unfold colDivisor
  split
  · exact one_ne_zero
  · assumption

/-- Reading entry `j` of a normalized row. -/
theorem normEntry_getD (d : List (List ℝ)) (row : List ℝ) (j : ℕ) :
    (List.zipWith (fun j v => (v - colMean d j) / colDivisor d j)
      (List.range row.length) row).getD j 0
    = if j < row.length then (row.getD j 0 - colMean d j) / colDivisor d j
      else 0 := by
  by_cases h : j < row.length
  · rw [if_pos h]
    have hlen : j < (List.zipWith
        (fun j v => (v - colMean d j) / colDivisor d j)
        (List.range row.length) row).length := by
      simpa [List.length_zipWith] using h
    rw [List.getD_eq_getElem _ _ hlen, List.getElem_zipWith,
      List.getElem_range, List.getD_eq_getElem _ _ h]
  · rw [if_neg h]
    rw [List.getD_eq_getElem?_getD, List.getElem?_eq_none]
    · rfl
    · simpa [List.length_zipWith] using not_lt.mp h

theorem sum_map_sub_const {α : Type} (l : List α) (g : α → ℝ) (m : ℝ) :
    (l.map (fun x => g x - m)).sum = (l.map g).sum - l.length * m := by
  induction l with
  | nil => simp
  | cons x rest ih =>
    simp only [List.map_cons, List.sum_cons, List.length_cons, ih]
    push_cast
    ring

theorem colVar_nonneg (d : List (List ℝ)) (j : ℕ) : 0 ≤ colVar d j := by
  unfold colVar
  apply div_nonneg
  · apply List.sum_nonneg
    intro x hx
    rw [List.mem_map] at hx
    obtain ⟨r, -, rfl⟩ := hx
    positivity
  · positivity

theorem colStd_sq (d : List (List ℝ)) (j : ℕ) :
    colStd d j ^ 2 = colVar d j :=
  Real.sq_sqrt (colVar_nonneg d j)

/-- C8.  The normalizer returns its input unchanged on zero rows or zero
columns, preserves the shape of the matrix, sends every all-constant input
column to the all-zero column (the divisor-1 guard at work), and on
rectangular input standardizes each column: the normalized column sums to
zero (mean 0) and, when the column's population standard deviation — the
root of the squared deviations divided by `n`, not `n-1` — is non-zero, the
normalized column's population variance is 1. -/
theorem cluster_C8_normalizer (d : List (List ℝ)) (j : ℕ) :
    normalizeData [] = []
    ∧ (d.headD [] = [] → normalizeData d = d)
    ∧ (normalizeData d).length = d.length
    ∧ (∀ i, ((normalizeData d).getD i []).length = (d.getD i []).length)
    ∧ (∀ c, (∀ r ∈ d, r.getD j 0 = c) →
        ∀ r ∈ normalizeData d, r.getD j 0 = 0)
    ∧ (d ≠ [] → (∀ r ∈ d, j < r.length) →
        ((normalizeData d).map (fun r => r.getD j 0)).sum = 0)
    ∧ (d ≠ [] → (∀ r ∈ d, j < r.length) → colStd d j ≠ 0 →
        ((normalizeData d).map (fun r => (r.getD j 0) ^ 2)).sum
          / (d.length : ℝ) = 1) := by
  refine ⟨by unfold normalizeData; simp, ?_, ?_, ?_, ?_, ?_, ?_⟩
  · intro h
    unfold normalizeData
    rw [if_pos (Or.inr h)]
  · unfold normalizeData
    split
    · rfl
    · simp
  · intro i
    unfold normalizeData
    split
    · rfl
    · rw [List.getD_eq_getElem?_getD, List.getElem?_map,
        List.getD_eq_getElem?_getD]
      cases hrow : d[i]? with
      | none => rfl
      | some row => simp [List.length_zipWith]
  · intro c hc
    unfold normalizeData
    split
    · rename_i hguard
      rcases hguard with hnil | hhead
      · subst hnil
        intro r hr
        exact absurd hr (List.not_mem_nil r)
      · intro r hr
        have hc0 : c = 0 := by
          have hhd : d.headD [] ∈ d := by
            match d, hr with
            | x :: rest, _ => exact List.mem_cons_self x rest
          have := hc _ hhd
          rw [hhead] at this
          simpa using this.symm
        rw [hc0] at hc
        exact hc r hr
    · rename_i hguard
      push_neg at hguard
      obtain ⟨hdne, -⟩ := hguard
      intro r hr
      rw [List.mem_map] at hr
      obtain ⟨row, hrow, rfl⟩ := hr
      rw [normEntry_getD]
      split
      · have hmean : colMean d j = c := by
          unfold colMean
          have hmap : d.map (fun r => r.getD j 0)
              = List.replicate d.length c := by
            rw [show List.replicate d.length c
                = d.map (Function.const _ c) from (List.map_const d c).symm]
            exact List.map_congr_left hc
          rw [hmap, List.sum_replicate, nsmul_eq_mul]
          have hn : (d.length : ℝ) ≠ 0 :=
            Nat.cast_ne_zero.mpr (fun h0 => hdne (List.length_eq_zero.mp h0))
          field_simp
        rw [hc row hrow, hmean, sub_self, zero_div]
      · rfl
  · intro hdne hrect
    have hguard : ¬(d = [] ∨ d.headD [] = []) := by
      push_neg
      refine ⟨hdne, ?_⟩
      intro hhead
      have hhd : d.headD [] ∈ d := by
        match d, hdne with
        | x :: rest, _ => exact List.mem_cons_self x rest
      have := hrect _ hhd
      rw [hhead] at this
      simp at this
    unfold normalizeData
    rw [if_neg hguard, List.map_map]
    have hmap : d.map ((fun r : List ℝ => r.getD j 0) ∘ fun row =>
        List.zipWith (fun j v => (v - colMean d j) / colDivisor d j)
          (List.range row.length) row)
        = d.map (fun row => (row.getD j 0 - colMean d j) * (colDivisor d j)⁻¹) := by
      apply List.map_congr_left
      intro row hrow
      show (List.zipWith _ (List.range row.length) row).getD j 0 = _
      rw [normEntry_getD, if_pos (hrect row hrow), div_eq_mul_inv]
    rw [hmap, List.sum_map_mul_right, sum_map_sub_const]
    have hn : (d.length : ℝ) ≠ 0 :=
      Nat.cast_ne_zero.mpr (fun h0 => hdne (List.length_eq_zero.mp h0))
    unfold colMean
    field_simp
  · intro hdne hrect hstd
    have hguard : ¬(d = [] ∨ d.headD [] = []) := by
      push_neg
      refine ⟨hdne, ?_⟩
      intro hhead
      have hhd : d.headD [] ∈ d := by
        match d, hdne with
        | x :: rest, _ => exact List.mem_cons_self x rest
      have := hrect _ hhd
      rw [hhead] at this
      simp at this
    have hdiv : colDivisor d j = colStd d j := by
      unfold colDivisor
      rw [if_neg hstd]
    have hvar_ne : colVar d j ≠ 0 := by
      intro hv
      apply hstd
      show Real.sqrt _ = 0
      rw [show ((d.map (fun r => (r.getD j 0 - colMean d j) ^ 2)).sum
          / d.length) = colVar d j from rfl, hv, Real.sqrt_zero]
    unfold normalizeData
    rw [if_neg hguard, List.map_map]
    have hmap : d.map ((fun r : List ℝ => (r.getD j 0) ^ 2) ∘ fun row =>
        List.zipWith (fun j v => (v - colMean d j) / colDivisor d j)
          (List.range row.length) row)
        = d.map (fun row =>
            (row.getD j 0 - colMean d j) ^ 2 * ((colStd d j ^ 2)⁻¹)) := by
      apply List.map_congr_left
      intro row hrow
      show ((List.zipWith _ (List.range row.length) row).getD j 0) ^ 2 = _
      rw [normEntry_getD, if_pos (hrect row hrow), hdiv, div_pow,
        div_eq_mul_inv]
    rw [hmap, List.sum_map_mul_right, colStd_sq]
    have hn : (d.length : ℝ) ≠ 0 :=
      Nat.cast_ne_zero.mpr (fun h0 => hdne (List.length_eq_zero.mp h0))
    have hsum_ne : (d.map (fun r => (r.getD j 0 - colMean d j) ^ 2)).sum ≠ 0 := by
      intro hs
      apply hvar_ne
      unfold colVar
      rw [hs, zero_div]
    have hv : colVar d j
        = (d.map (fun r => (r.getD j 0 - colMean d j) ^ 2)).sum
          / (d.length : ℝ) := rfl
    rw [hv, inv_div, ← mul_div_assoc, mul_div_cancel_left₀ _ hsum_ne]
    exact div_self hn

/-- C8 witness: the two-row one-column matrix `[[0],[2]]` — its column is
standardized to sum 0 and variance 1, and shapes are preserved; plus the
degenerate identities. -/
theorem cluster_C8_normalizer_witness :
    normalizeData ([] : List (List ℝ)) = []
    ∧ (normalizeData [[(0 : ℝ)], [2]]).length = 2
    ∧ ((normalizeData [[(0 : ℝ)], [2]]).map (fun r => r.getD 0 0)).sum = 0
    ∧ ((normalizeData [[(0 : ℝ)], [2]]).map
        (fun r => (r.getD 0 0) ^ 2)).sum
      / (([[(0 : ℝ)], [2]] : List (List ℝ)).length : ℝ) = 1 := by
  have h := cluster_C8_normalizer [[(0 : ℝ)], [2]] 0
  have hrect : ∀ r ∈ [[(0 : ℝ)], [2]], 0 < r.length := by
    intro r hr
    rcases List.mem_cons.mp hr with h1 | h1
    · rw [h1]; norm_num
    · rcases List.mem_cons.mp h1 with h2 | h2
      · rw [h2]; norm_num
      · exact absurd h2 (List.not_mem_nil r)
  have hne : ([[(0 : ℝ)], [2]] : List (List ℝ)) ≠ [] := by simp
  have hstd : colStd [[(0 : ℝ)], [2]] 0 ≠ 0 := by
    have hmean : colMean [[(0 : ℝ)], [2]] 0 = 1 := by
      unfold colMean
      norm_num
    unfold colStd
    rw [hmean]
    norm_num
  exact ⟨h.1, h.2.2.1, h.2.2.2.2.2.1 hne hrect,
    h.2.2.2.2.2.2 hne hrect hstd⟩

/-- C7 counterexample: with a date-like field present but zero parseable
dates, `monthlyData` is the empty list (line 601 returns the empty
`Object.entries` from inside the `try`), not the claimed synthetic 12-bucket
fallback. -/
theorem cluster_C7_counterexample :
    dateFields tC7 ≠ [] ∧ monthGroups tC7 = []
    ∧ monthlyData tC7 (fun _ => 0) = []
    ∧ (monthlyData tC7 (fun _ => 0)).length ≠ 12 :=
  ⟨by decide, by decide, by decide, by decide⟩

/-- Records whose date does not parse never touch the month grouping. -/
theorem monthGroupsAux_drops (df a0 : String) (hasAmt : Bool)
    (rows : List Rec) :
    ∀ acc : List (String × ℕ × ℚ),
      List.foldl (fun acc r =>
          match jsParseDate (getField r df) with
          | none => acc
          | some ym => dBump acc (monthKey ym.1 ym.2)
              (if hasAmt then (jsParseFloat (getField r a0)).getD 0 else 0))
        acc rows
      = List.foldl (fun acc r =>
          match jsParseDate (getField r df) with
          | none => acc
          | some ym => dBump acc (monthKey ym.1 ym.2)
              (if hasAmt then (jsParseFloat (getField r a0)).getD 0 else 0))
        acc (rows.filter (fun r => (jsParseDate (getField r df)).isSome)) := by
  induction rows with
  | nil => intro acc; rfl
  | cons r rest ih =>
    intro acc
    cases h : jsParseDate (getField r df) with
    | none => simp only [List.foldl_cons, List.filter_cons, h,
        Option.isSome_none, Bool.false_eq_true, if_false, ih]
    | some ym => simp only [List.foldl_cons, List.filter_cons, h,
        Option.isSome_some, if_true, List.foldl_cons, ih]

/-- C7 (amended).  Unparseable dates are dropped from the real-trend
grouping; with no date-like field at all the output is the synthetic
12-bucket trend; but when a date-like field exists and zero buckets result,
the output is the empty trend, not the synthetic fallback. -/
theorem cluster_C7_amended (t : Table) (rng : ℕ → ℚ) (df a0 : String)
    (hasAmt : Bool) (rows : List Rec) :
    monthGroupsAux df a0 hasAmt rows
      = monthGroupsAux df a0 hasAmt
          (rows.filter (fun r => (jsParseDate (getField r df)).isSome))
    ∧ (dateFields t = [] → (monthlyData t rng).length = 12)
    ∧ (dateFields t ≠ [] → monthGroups t = [] →
        monthlyData t rng = []) := by
  refine ⟨?_, ?_, ?_⟩
  · unfold monthGroupsAux
    exact monthGroupsAux_drops df a0 hasAmt rows []
  · intro hd
    simp [monthlyData, hd, syntheticMonthly]
  · intro hd hg
    rw [monthlyData, if_neg hd]
    simp [realMonthly, hg, sortBuckets]

/-- C7 witness: the synthetic branch at a table with no date-like column and
the empty-trend branch at the unparseable-dates table. -/
theorem cluster_C7_amended_witness :
    (monthlyData [[("name", "x")]] (fun _ => 0)).length = 12
    ∧ monthlyData tC7 (fun _ => 0) = [] := by
  constructor
  · exact (cluster_C7_amended [[("name", "x")]] (fun _ => 0) "" "" false
      []).2.1 (by decide)
  · exact (cluster_C7_amended tC7 (fun _ => 0) "" "" false []).2.2
      (by decide) (by decide)

/-- C10 witness: a row that already has a `segment` column still reports the
derived segment, and its `city` column passes through. -/
theorem cluster_C10_shadowing_witness :
    objGet ((customerSegments [[("segment", "Premium"), ("city", "NY")]]).getD
        0 []) "segment"
      = some (.vStr (segmentAt [[("segment", "Premium"), ("city", "NY")]] 0))
    ∧ objGet ((customerSegments
        [[("segment", "Premium"), ("city", "NY")]]).getD 0 []) "city"
      = objGet (baseObj [("segment", "Premium"), ("city", "NY")]) "city" := by
  have h := cluster_C10_shadowing [[("segment", "Premium"), ("city", "NY")]]
    0 (by decide) "city" (by decide)
  exact ⟨h.2.2.1, by simpa using h.2.2.2.2.2⟩

end Cluster
